import Mathlib

/-!
Verification of the storage and memory substrate of the hangpark/pintos
repository, as a shallow embedding in Lean 4.

The embedding covers, faithfully to the C sources:
  * `src/filesys/free-map.c`  — the free-sector bitmap and its allocators;
  * `src/filesys/cache.c`     — the buffer cache (clock eviction, remove,
                                read-ahead enqueue and worker);
  * `src/filesys/inode.c`     — the inode store (extend / rollback / write);
  * `src/vm/page.c`, `src/vm/frame.c`, `src/vm/swap.c` — the supplemental
                                page table, frame eviction and swap table;
  * `src/userprog/syscall.c`  — the munmap write-back path.

Machine integers: every quantity involved (sector numbers, counts, byte
offsets, lengths) is non-negative and far below 2^31 in all behaviours the
theorems below speak about, so they are modelled as `Nat`; `off_t`
subtraction appears only where the C code has already established the
minuend is at least the subtrahend.  Disk and swap I/O is modelled by an
explicit store / write log; success of the free-map file write-back
(`bitmap_write`, whose implementation lives in the generic `lib/kernel`
layer outside this repository) is abstracted by a boolean oracle.
-/

namespace PintosFS

/-! ## Bitmap primitives (`lib/kernel/bitmap.c` behaviour, as used here)

The generic bitmap is not part of the repository snapshot; the operations
below model from the spec and the call sites exactly the slice used by
`free-map.c` and `swap.c`: scanning for a run of `cnt` bits equal to `v`
starting at index 0, setting a run of bits, and testing/marking single
bits.  A bitmap is a `List Bool`. -/

/-- Modelled from the spec: a run of `cnt` bits all equal to `v` starting at
`start`, lying entirely inside the bitmap (missing from src: the generic
bitmap library is outside the snapshot; behaviour per Pintos
`bitmap_contains`/`bitmap_scan` contract). -/
def run_val (m : List Bool) (start cnt : Nat) (v : Bool) : Bool :=
  decide (start + cnt ≤ m.length) &&
    (List.range cnt).all (fun i => m.getD (start + i) (!v) == v)

/-- Modelled from the spec: `bitmap_scan (m, 0, cnt, v)` — least index where a
run of `cnt` bits equal to `v` begins (missing from src: generic bitmap
library). -/
def bitmap_scan (m : List Bool) (cnt : Nat) (v : Bool) : Option Nat :=
  (List.range (m.length + 1)).find? (fun s => run_val m s cnt v)

/-- Modelled from the spec: `bitmap_set_multiple (m, start, cnt, v)` (missing
from src: generic bitmap library). -/
def bitmap_set_multiple : List Bool → Nat → Nat → Bool → List Bool
  | [], _, _, _ => []
  | b :: bs, s+1, cnt, v => b :: bitmap_set_multiple bs s cnt v
  | _ :: bs, 0, c+1, v => v :: bitmap_set_multiple bs 0 c v
  | b :: bs, 0, 0, _ => b :: bs

/-- Modelled from the spec: `bitmap_scan_and_flip (m, 0, cnt, false)` — scan
for `cnt` consecutive `false` bits and flip them to `true` (missing from
src: generic bitmap library). -/
def bitmap_scan_and_flip (m : List Bool) (cnt : Nat) :
    Option (Nat × List Bool) :=
  match bitmap_scan m cnt false with
  | none => none
  | some s => some (s, bitmap_set_multiple m s cnt true)

/-! ## `free-map.c` -/

/-- `free_map_allocate` (free-map.c:26-40).  `fp` models
`free_map_file != NULL`; `wk` models whether `bitmap_write` to the free-map
file succeeds (the file write path is outside this module).  Returns the
allocated first sector (or `none`) and the updated in-memory bitmap;
on a failed persistence write the just-set bits are set back to `false`
exactly as the source does. -/
def free_map_allocate (fp wk : Bool) (m : List Bool) (cnt : Nat) :
    Option Nat × List Bool :=
  match bitmap_scan_and_flip m cnt with
  | none => (none, m)
  | some (s, m1) =>
    if fp && !wk then (none, bitmap_set_multiple m1 s cnt false)
    else (some s, m1)

/-- `free_map_release` (free-map.c:43-49): marks `cnt` bits free starting at
`sector` (the `ASSERT (bitmap_all ...)` internal-invariant check and the
`bitmap_write` persistence call do not affect the in-memory map). -/
def free_map_release (m : List Bool) (sector cnt : Nat) : List Bool :=
  bitmap_set_multiple m sector cnt false

/-- The `while (size > 0)` loop of `free_map_allocate_r`
(free-map.c:123-128): try `size`, halving on failure.  Returns the size
actually allocated (0 on give-up), the sector stored into `*sectorp`
(`none` when `*sectorp` was not written), and the updated bitmap.
The structural `fuel` argument only bounds the recursion; the loop
halves `size` each iteration, so any `fuel > size` is never exhausted
(`fm_alloc_loop_fuel_eq_find` is proved under exactly that bound). -/
def fm_alloc_loop_fuel (fp wk : Bool) :
    Nat → List Bool → Nat → Nat × Option Nat × List Bool
  | 0, m, _ => (0, none, m)
  | f+1, m, size =>
    if size = 0 then (0, none, m)
    else
      match free_map_allocate fp wk m size with
      | (some s, m1) => (size, some s, m1)
      | (none, m1) => fm_alloc_loop_fuel fp wk f m1 (size / 2)

/-- The halving loop at its adequate fuel. -/
def fm_alloc_loop (fp wk : Bool) (m : List Bool) (size : Nat) :
    Nat × Option Nat × List Bool :=
  fm_alloc_loop_fuel fp wk (size + 1) m size

/-- `free_map_allocate_r` (free-map.c:114-133).  Returns
`(n, sector?, m', cntp')`: the number of consecutive sectors allocated,
the first sector, the updated bitmap, and the decremented desired count. -/
def free_map_allocate_r (fp wk : Bool) (m : List Bool) (cntp size : Nat) :
    Nat × Option Nat × List Bool × Nat :=
  let size' := if size > cntp then cntp else size
  let r := fm_alloc_loop fp wk m size'
  (r.1, r.2.1, r.2.2, cntp - r.1)

/-- The chain of sizes the halving loop attempts: `[n, n/2, …, 1]`. -/
def halveList (n : Nat) : List Nat :=
  if h : n = 0 then []
  else n :: halveList (n / 2)
  termination_by n
  decreasing_by exact Nat.div_lt_self (Nat.pos_of_ne_zero h) (by decide)

/-- Number of `true` (used) bits in the free map. -/
def fm_used_count (m : List Bool) : Nat := m.count true

example : bitmap_scan [true, false, false, true] 2 false = some 1 := by decide

example : free_map_allocate true true [true, false, false] 2 =
    (some 1, [true, true, true]) := by decide

example : fm_alloc_loop true true [true, false, true, false] 3 =
    (1, some 1, [true, true, true, false]) := by
  simp [fm_alloc_loop]
  decide

/-! ### Bitmap lemmas -/

theorem bitmap_set_multiple_length (m : List Bool) (s c : Nat) (v : Bool) :
    (bitmap_set_multiple m s c v).length = m.length := by
  induction m generalizing s c with
  | nil => rfl
  | cons b bs ih =>
    cases s with
    | succ s => simp [bitmap_set_multiple, ih]
    | zero =>
      cases c with
      | zero => rfl
      | succ c => simp [bitmap_set_multiple, ih]

theorem bitmap_set_multiple_getElem? (m : List Bool) (s c : Nat) (v : Bool)
    (i : Nat) :
    (bitmap_set_multiple m s c v)[i]? =
      if s ≤ i ∧ i < s + c then (m[i]?).map (fun _ => v) else m[i]? := by
  induction m generalizing s c i with
  | nil => simp [bitmap_set_multiple]
  | cons b bs ih =>
    cases s with
    | zero =>
      cases c with
      | zero => simp [bitmap_set_multiple]
      | succ c =>
        cases i with
        | zero => simp [bitmap_set_multiple]
        | succ i =>
          simp only [bitmap_set_multiple, List.getElem?_cons_succ, ih]
          split_ifs with h1 h2 <;> first | rfl | omega
    | succ s =>
      cases i with
      | zero =>
        simp only [bitmap_set_multiple, List.getElem?_cons_zero]
        split_ifs with h1 <;> first | rfl | omega
      | succ i =>
        simp only [bitmap_set_multiple, List.getElem?_cons_succ, ih]
        split_ifs with h1 h2 <;> first | rfl | omega

theorem run_val_iff (m : List Bool) (s c : Nat) (v : Bool) :
    run_val m s c v = true ↔
      s + c ≤ m.length ∧ ∀ i < c, m[s + i]? = some v := by
  simp only [run_val, Bool.and_eq_true, decide_eq_true_eq, List.all_eq_true,
    List.mem_range, beq_iff_eq]
  constructor
  · rintro ⟨hl, hall⟩
    refine ⟨hl, fun i hi => ?_⟩
    have hlt : s + i < m.length := by omega
    have := hall i hi
    rw [List.getD_eq_getElem?_getD, List.getElem?_eq_getElem hlt] at this
    rw [List.getElem?_eq_getElem hlt]
    simpa using this
  · rintro ⟨hl, hall⟩
    refine ⟨hl, fun i hi => ?_⟩
    rw [List.getD_eq_getElem?_getD, hall i hi]
    rfl

theorem bitmap_set_multiple_restore (m : List Bool) (s c : Nat)
    (h : run_val m s c false = true) :
    bitmap_set_multiple (bitmap_set_multiple m s c true) s c false = m := by
  obtain ⟨hl, hall⟩ := (run_val_iff m s c false).1 h
  apply List.ext_getElem?
  intro i
  rw [bitmap_set_multiple_getElem?, bitmap_set_multiple_getElem?]
  split_ifs with hin
  · obtain ⟨h1, h2⟩ := hin
    have := hall (i - s) (by omega)
    rw [Nat.add_sub_cancel' h1] at this
    rw [this]
    rfl
  · rfl

theorem bitmap_scan_some {m : List Bool} {cnt : Nat} {v : Bool} {s : Nat}
    (h : bitmap_scan m cnt v = some s) : run_val m s cnt v = true := by
  have := List.find?_some h
  simpa using this

/-! ### free-map theorems -/

theorem bitmap_scan_and_flip_some {m : List Bool} {cnt s : Nat}
    {m1 : List Bool} (h : bitmap_scan_and_flip m cnt = some (s, m1)) :
    bitmap_scan m cnt false = some s ∧
      m1 = bitmap_set_multiple m s cnt true := by
  unfold bitmap_scan_and_flip at h
  cases hsc : bitmap_scan m cnt false <;> rw [hsc] at h
  · simp at h
  · simp only [Option.some.injEq, Prod.mk.injEq] at h
    obtain ⟨rfl, rfl⟩ := h
    exact ⟨hsc ▸ rfl, rfl⟩

theorem free_map_allocate_fail_eq {fp wk : Bool} {m : List Bool} {cnt : Nat}
    (h : (free_map_allocate fp wk m cnt).1 = none) :
    (free_map_allocate fp wk m cnt).2 = m := by
  cases hscan : bitmap_scan_and_flip m cnt with
  | none => simp [free_map_allocate, hscan]
  | some sm =>
    obtain ⟨s, m1⟩ := sm
    simp only [free_map_allocate, hscan] at h ⊢
    obtain ⟨hs, rfl⟩ := bitmap_scan_and_flip_some hscan
    by_cases hc : (fp && !wk) = true
    · simp only [hc, if_true]
      exact bitmap_set_multiple_restore m s cnt (bitmap_scan_some hs)
    · simp [hc] at h

theorem free_map_allocate_succ {fp wk : Bool} {m : List Bool} {cnt s : Nat}
    {m' : List Bool} (h : free_map_allocate fp wk m cnt = (some s, m')) :
    run_val m s cnt false = true ∧ m' = bitmap_set_multiple m s cnt true := by
  cases hscan : bitmap_scan_and_flip m cnt with
  | none => simp [free_map_allocate, hscan] at h
  | some sm =>
    obtain ⟨s1, m1⟩ := sm
    simp only [free_map_allocate, hscan] at h
    obtain ⟨hs, rfl⟩ := bitmap_scan_and_flip_some hscan
    by_cases hc : (fp && !wk) = true
    · simp [hc] at h
    · rw [if_neg hc] at h
      obtain ⟨h1, h2⟩ := Prod.mk.injEq .. ▸ h
      obtain rfl : s1 = s := by simpa using h1
      exact ⟨bitmap_scan_some hs, h2.symm⟩

theorem free_map_allocate_writefail_none (m : List Bool) (cnt : Nat) :
    (free_map_allocate true false m cnt).1 = none := by
  cases hscan : bitmap_scan_and_flip m cnt with
  | none => simp [free_map_allocate, hscan]
  | some sm => obtain ⟨s, m1⟩ := sm; simp [free_map_allocate, hscan]

/-- C10: `free_map_allocate` is all-or-nothing for the in-memory map: when
the free-map-file write-back fails (`fp = true`, `wk = false`) the call
reports failure even though a run was found, and on every failed allocate
(scan failure or write failure) the in-memory free map is returned
identical to its state before the call. -/
theorem free_map_allocate_all_or_nothing (fp wk : Bool) (m : List Bool)
    (cnt : Nat) :
    (free_map_allocate true false m cnt).1 = none ∧
      ((free_map_allocate fp wk m cnt).1 = none →
        (free_map_allocate fp wk m cnt).2 = m) :=
  ⟨free_map_allocate_writefail_none m cnt, fun h => free_map_allocate_fail_eq h⟩

/-- Witness for C10 at a concrete input: one free sector is found and
flipped, the write-back fails, the call reports failure and the map
`[true, false]` is unchanged. -/
theorem free_map_allocate_all_or_nothing_witness :
    (free_map_allocate true false [true, false] 1).1 = none ∧
      (free_map_allocate true false [true, false] 1).2 = [true, false] := by
  obtain ⟨h1, h2⟩ := free_map_allocate_all_or_nothing true false [true, false] 1
  exact ⟨h1, h2 h1⟩

/-! ### The halving loop -/

theorem halveList_mem {n x : Nat} (h : x ∈ halveList n) : 1 ≤ x ∧ x ≤ n := by
  induction n using Nat.strong_induction_on with
  | _ n ih =>
    rw [halveList] at h
    by_cases h0 : n = 0
    · simp [h0] at h
    · rw [dif_neg h0] at h
      rcases List.mem_cons.1 h with rfl | htail
      · omega
      · have := ih (n / 2) (Nat.div_lt_self (Nat.pos_of_ne_zero h0) (by decide))
          htail
        omega

theorem fm_alloc_loop_fuel_eq_find (fp wk : Bool) :
    ∀ size fuel (m : List Bool), size < fuel →
    fm_alloc_loop_fuel fp wk fuel m size =
      match (halveList size).find?
          (fun c => ((free_map_allocate fp wk m c).1).isSome) with
      | some c => (c, (free_map_allocate fp wk m c).1,
                   (free_map_allocate fp wk m c).2)
      | none => (0, none, m) := by
  intro size
  induction size using Nat.strong_induction_on with
  | _ size ih =>
    intro fuel m hf
    cases fuel with
    | zero => omega
    | succ f =>
      by_cases h0 : size = 0
      · subst h0
        rw [halveList]
        simp [fm_alloc_loop_fuel]
      · rw [fm_alloc_loop_fuel, if_neg h0]
        cases hall : free_map_allocate fp wk m size with
        | mk o m1 =>
          cases o with
          | some s =>
            conv_rhs => rw [halveList]
            rw [dif_neg h0]
            have hpred : ((free_map_allocate fp wk m size).1).isSome = true := by
              rw [hall]
              rfl
            simp [List.find?_cons, hpred, hall]
          | none =>
            have hm1 : m1 = m := by
              have := @free_map_allocate_fail_eq fp wk m size (by rw [hall])
              rw [hall] at this
              exact this
            subst hm1
            have hrec := ih (size / 2)
              (Nat.div_lt_self (Nat.pos_of_ne_zero h0) (by decide)) f m1
              (by omega)
            have hstep : (match ((none : Option Nat), m1) with
                | (some s, m1) => (size, some s, m1)
                | (none, m1) => fm_alloc_loop_fuel fp wk f m1 (size / 2)) =
                fm_alloc_loop_fuel fp wk f m1 (size / 2) := rfl
            rw [hstep, hrec]
            conv_rhs => rw [halveList]
            rw [dif_neg h0]
            have hpred : ((free_map_allocate fp wk m1 size).1).isSome = false := by
              rw [hall]
              rfl
            simp [List.find?_cons, hpred]

theorem fm_alloc_loop_eq_find (fp wk : Bool) (m : List Bool) (size : Nat) :
    fm_alloc_loop fp wk m size =
      match (halveList size).find?
          (fun c => ((free_map_allocate fp wk m c).1).isSome) with
      | some c => (c, (free_map_allocate fp wk m c).1,
                   (free_map_allocate fp wk m c).2)
      | none => (0, none, m) :=
  fm_alloc_loop_fuel_eq_find fp wk size (size + 1) m (by omega)

/-- C7: contract of the decreasing-contiguity allocator
`free_map_allocate_r`.  Writing `clamp` for the chunk size clamped to the
desired remaining count (`if (size > *cntp) size = *cntp`), the result
`(n, sector?, m', cntp')` satisfies: `n ≤ size` and `n ≤ cntp`
(so `n ≤ min size cntp`); `cntp' = cntp - n`; `n` is the first size in the
halving chain `[clamp, clamp/2, …, 1]` at which `free_map_allocate`
succeeds (`0` when every attempt fails); when `n > 0`, a run of `n`
consecutive previously-free sectors starting at the sector stored in
`*sectorp` has been marked used and nothing else changed; when `n = 0`,
no sector was stored and the map is unchanged. -/
theorem free_map_allocate_r_spec (fp wk : Bool) (m : List Bool)
    (cntp size : Nat) :
    (free_map_allocate_r fp wk m cntp size).1 ≤ size ∧
    (free_map_allocate_r fp wk m cntp size).1 ≤ cntp ∧
    (free_map_allocate_r fp wk m cntp size).2.2.2 =
      cntp - (free_map_allocate_r fp wk m cntp size).1 ∧
    (free_map_allocate_r fp wk m cntp size).1 =
      (((halveList (if size > cntp then cntp else size)).find?
        (fun c => ((free_map_allocate fp wk m c).1).isSome)).getD 0) ∧
    ((free_map_allocate_r fp wk m cntp size).1 ≠ 0 →
      ∃ s, (free_map_allocate_r fp wk m cntp size).2.1 = some s ∧
        run_val m s (free_map_allocate_r fp wk m cntp size).1 false = true ∧
        (free_map_allocate_r fp wk m cntp size).2.2.1 =
          bitmap_set_multiple m s
            (free_map_allocate_r fp wk m cntp size).1 true) ∧
    ((free_map_allocate_r fp wk m cntp size).1 = 0 →
      (free_map_allocate_r fp wk m cntp size).2.1 = none ∧
        (free_map_allocate_r fp wk m cntp size).2.2.1 = m) := by
  simp only [free_map_allocate_r]
  rw [fm_alloc_loop_eq_find]
  cases hf : ((halveList (if size > cntp then cntp else size)).find?
      (fun c => ((free_map_allocate fp wk m c).1).isSome)) with
  | none => simp
  | some c =>
    have hmem := List.mem_of_find?_eq_some hf
    have hpred := List.find?_some hf
    obtain ⟨hc1, hc2⟩ := halveList_mem hmem
    have hcle : c ≤ size ∧ c ≤ cntp := by
      by_cases hgt : size > cntp <;> simp [hgt] at hc2 <;> omega
    cases hall : (free_map_allocate fp wk m c).1 with
    | none => rw [hall] at hpred; simp at hpred
    | some s =>
      have hsucc := @free_map_allocate_succ fp wk m c s
        (free_map_allocate fp wk m c).2 (by rw [← hall])
      simp only [hall]
      refine ⟨?_, ?_, ?_, ?_, ?_, ?_⟩
      · exact hcle.1
      · exact hcle.2
      · trivial
      · simp
      · exact fun _ => ⟨s, rfl, hsucc.1, hsucc.2⟩
      · exact fun h0 => absurd h0 (by omega)

/-- Witness for C7 at a concrete input: desired 3 sectors, chunk 3, map
`[false, true, false, false]`; the attempt at 3 fails, the halved attempt
at 1 succeeds at sector 0, so `n = 1`, the run `[0,1)` is flipped to used
and the desired count drops to 2. -/
theorem free_map_allocate_r_spec_witness :
    (free_map_allocate_r true true [false, true, false, false] 3 3).1 ≠ 0 ∧
      ∃ s, (free_map_allocate_r true true [false, true, false, false] 3
              3).2.1 = some s ∧
        run_val [false, true, false, false] s
          (free_map_allocate_r true true [false, true, false, false] 3
            3).1 false = true ∧
        (free_map_allocate_r true true [false, true, false, false] 3
            3).2.2.1 =
          bitmap_set_multiple [false, true, false, false] s
            (free_map_allocate_r true true [false, true, false, false] 3
              3).1 true := by
  have hne : (free_map_allocate_r true true [false, true, false, false] 3
      3).1 ≠ 0 := by
    simp [free_map_allocate_r, fm_alloc_loop]
    decide
  exact ⟨hne, (free_map_allocate_r_spec true true [false, true, false, false]
    3 3).2.2.2.2.1 hne⟩

/-! ## `cache.c` — the buffer cache

Entries, the clock cursor and the file-system disk are modelled
explicitly; `disk_write`/`disk_read` act on an association list of sector
images (latest write first). -/

/-- `struct buffer_cache_entry` (cache.c:18-25). -/
structure BCEntry where
  usebit : Bool
  sector : Nat
  dirty : Bool
  accessed : Bool
  data : List Nat
deriving DecidableEq

instance : Inhabited BCEntry := ⟨⟨false, 0, false, false, []⟩⟩

/-- `BUFFER_CACHE_NUM` (cache.c:12). -/
def BUFFER_CACHE_NUM : Nat := 64

/-- The buffer-cache module state: the 64 entries, the clock position
`buffer_cache_pos` and the file-system disk contents. -/
structure BCState where
  cache : List BCEntry
  pos : Nat
  disk : List (Nat × List Nat)
deriving DecidableEq

/-- `disk_write (filesys_disk, sector, data)`: the newest image of a sector
shadows older ones. -/
def disk_write (d : List (Nat × List Nat)) (sec : Nat) (bytes : List Nat) :
    List (Nat × List Nat) :=
  (sec, bytes) :: d

/-- `disk_read (filesys_disk, sector, ...)`; unwritten sectors read as
zeros (freshly formatted device). -/
def disk_read (d : List (Nat × List Nat)) (sec : Nat) : List Nat :=
  match d.find? (fun p => p.1 == sec) with
  | some p => p.2
  | none => List.replicate 512 0

/-- `buffer_cache_find` (cache.c:203-213), returning the index of the entry
in use for `sector` (the C function returns a pointer). -/
def buffer_cache_find (cache : List BCEntry) (sector : Nat) : Option Nat :=
  cache.findIdx? (fun e => e.usebit && e.sector == sector)

/-- `buffer_cache_get_empty` (cache.c:217-227). -/
def buffer_cache_get_empty (cache : List BCEntry) : Option Nat :=
  cache.findIdx? (fun e => !e.usebit)

/-- The `for (;;)` loop of `buffer_cache_to_evict` (cache.c:235-241).  The
body re-examines the entry at the *same* `buffer_cache_pos` after clearing
its accessed bit — the cursor is not advanced inside the loop — so the
loop exits after at most two iterations; fuel 2 is therefore exact
(`to_evict_loop_fuel` below). -/
def to_evict_loop (cache : List BCEntry) (pos : Nat) : Nat → List BCEntry
  | 0 => cache
  | fuel+1 =>
    if (cache.getD pos default).accessed then
      to_evict_loop
        (cache.set pos { cache.getD pos default with accessed := false })
        pos fuel
    else cache

/-- `buffer_cache_to_evict` (cache.c:231-244): returns the victim index and
the state with the loop's accessed-bit clearing applied and
`buffer_cache_pos` advanced by one (mod 64). -/
def buffer_cache_to_evict (st : BCState) : Nat × BCState :=
  let cache := to_evict_loop st.cache st.pos 2
  (st.pos, { st with cache := cache, pos := (st.pos + 1) % BUFFER_CACHE_NUM })

/-- If the entry at the cursor is not accessed, the eviction loop stops at
once, for any positive fuel. -/
theorem to_evict_loop_stop (cache : List BCEntry) (pos : Nat)
    (h : (cache.getD pos default).accessed = false) (n : Nat) :
    to_evict_loop cache pos (n + 1) = cache := by
  have h' : (cache[pos]?.getD default).accessed = false := by
    rw [← List.getD_eq_getElem?_getD]
    exact h
  rw [to_evict_loop, if_neg (by simp [h'])]

/-- Any fuel beyond 2 is irrelevant: after one clearing of the accessed bit
the same entry is re-examined and the loop exits. -/
theorem to_evict_loop_fuel (cache : List BCEntry) (pos fuel : Nat) :
    to_evict_loop cache pos (fuel + 2) = to_evict_loop cache pos 2 := by
  by_cases ha : (cache.getD pos default).accessed
  · have hstep : ∀ n, to_evict_loop cache pos (n + 1) =
        to_evict_loop
          (cache.set pos { cache.getD pos default with accessed := false })
          pos n := by
      intro n
      have ha2 : (cache[pos]?.getD default).accessed = true := by
        rw [← List.getD_eq_getElem?_getD]
        exact ha
      rw [to_evict_loop, if_pos (by simp [ha2])]
    have hset : ((cache.set pos
        { cache.getD pos default with accessed := false }).getD pos
          default).accessed = false := by
      rw [List.getD_eq_getElem?_getD]
      rcases Nat.lt_or_ge pos cache.length with hp | hp
      · rw [List.getElem?_set_self (by simpa using hp)]
        rfl
      · rw [List.getElem?_eq_none (by simpa using hp)]
        rfl
    calc to_evict_loop cache pos (fuel + 2)
        = to_evict_loop
            (cache.set pos { cache.getD pos default with accessed := false })
            pos (fuel + 1) := hstep (fuel + 1)
      _ = cache.set pos { cache.getD pos default with accessed := false } :=
          to_evict_loop_stop _ _ hset fuel
      _ = to_evict_loop
            (cache.set pos { cache.getD pos default with accessed := false })
            pos 1 := (to_evict_loop_stop _ _ hset 0).symm
      _ = to_evict_loop cache pos 2 := (hstep 1).symm
  · have ha' : (cache.getD pos default).accessed = false := by
      simpa using ha
    rw [to_evict_loop_stop _ _ ha' (fuel + 1), to_evict_loop_stop _ _ ha' 1]

/-- `buffer_cache_remove` (cache.c:171-185): only an entry that is both
present *and dirty* is flushed and has its `usebit` cleared; the source
clears `usebit` inside `if (entry != NULL && entry->dirty)`. -/
def buffer_cache_remove (st : BCState) (sector : Nat) : BCState :=
  match buffer_cache_find st.cache sector with
  | some i =>
    let e := st.cache.getD i default
    if e.dirty then
      { st with disk := disk_write st.disk e.sector e.data,
                cache := st.cache.set i { e with usebit := false } }
    else st
  | none => st

/-- `buffer_cache_fetch` (cache.c:250-275). -/
def buffer_cache_fetch (st : BCState) (sector : Nat) (read : Bool) :
    Nat × BCState :=
  match buffer_cache_find st.cache sector with
  | some i => (i, st)
  | none =>
    let (i, st1) :=
      match buffer_cache_get_empty st.cache with
      | some i =>
        let e1 := { st.cache.getD i default with usebit := true }
        (i, { st with cache := st.cache.set i e1 })
      | none =>
        let (i, st') := buffer_cache_to_evict st
        let e := st'.cache.getD i default
        (i, if e.dirty then
              { st' with disk := disk_write st'.disk e.sector e.data }
            else st')
    let st2 :=
      if read then
        let e2 := { st1.cache.getD i default with
                      data := disk_read st1.disk sector, dirty := false }
        { st1 with cache := st1.cache.set i e2 }
      else st1
    let e3 := { st2.cache.getD i default with sector := sector }
    (i, { st2 with cache := st2.cache.set i e3 })

/-- The read-ahead subsystem state (cache.c:36-50): the pending queue and
the counting semaphore's value (`sema_init (&read_ahead_sema, 0)` at
init). -/
structure RAState where
  queue : List Nat
  sema : Nat
deriving DecidableEq

/-- `buffer_cache_read_ahead` (cache.c:187-199): allocates a request node
(`mallocOk` models the `malloc` result), pushes it on the queue — and
performs no `sema_up`; no signal of `read_ahead_sema` appears anywhere in
cache.c. -/
def buffer_cache_read_ahead (st : RAState) (mallocOk : Bool) (sector : Nat) :
    RAState :=
  if mallocOk then { st with queue := st.queue ++ [sector] } else st

/-- One round of `buffer_cache_thread_read_ahead` (cache.c:68-86): the
worker first blocks in `sema_down (&read_ahead_sema)`; with the semaphore
at 0 it cannot proceed (`none`).  Otherwise it pops the queue head for
fetching. -/
def read_ahead_worker_step (st : RAState) : Option (Nat × RAState) :=
  match st.sema, st.queue with
  | 0, _ => none
  | _+1, [] => none
  | n+1, s :: rest => some (s, { queue := rest, sema := n })

/-- C3 (code bug): `buffer_cache_read_ahead` enqueues the request but never
signals `read_ahead_sema` — from the initial state (`sema = 0`, empty
queue) an enqueue of sector 5 leaves the semaphore at 0 and the worker,
which waits on that semaphore, blocked; the claim's "one signal per
successfully enqueued request" does not hold. -/
theorem buffer_cache_read_ahead_never_signals :
    (buffer_cache_read_ahead ⟨[], 0⟩ true 5).queue = [5] ∧
    (buffer_cache_read_ahead ⟨[], 0⟩ true 5).sema = 0 ∧
    read_ahead_worker_step (buffer_cache_read_ahead ⟨[], 0⟩ true 5) =
      none := by
  decide

/-- A concrete cache state: a clean in-use entry for sector 7 in slot 0. -/
def bcClean7 : BCState :=
  { cache := ⟨true, 7, false, true, [1, 2, 3]⟩ ::
      List.replicate 63 default,
    pos := 0,
    disk := [] }

set_option maxRecDepth 4000 in
/-- C4 (code bug): `buffer_cache_remove 7` on a state whose entry for
sector 7 is present but clean leaves the state entirely unchanged — the
entry is still in use and still found — because the source clears
`usebit` only inside the `entry->dirty` branch; the claim's "in every case
(dirty or clean) the entry is cleared" fails for clean entries. -/
theorem buffer_cache_remove_keeps_clean_entry :
    buffer_cache_remove bcClean7 7 = bcClean7 ∧
    buffer_cache_find (buffer_cache_remove bcClean7 7).cache 7 = some 0 ∧
    ((buffer_cache_remove bcClean7 7).cache.getD 0 default).usebit = true := by
  refine ⟨?_, ?_, ?_⟩ <;> decide

/-- A concrete cache state for the eviction claim: the cursor is at slot 0,
slot 0 has its accessed flag set, slot 1 is in use with accessed clear. -/
def bcTwoEntries : BCState :=
  { cache := ⟨true, 10, false, true, []⟩ :: ⟨true, 11, false, false, []⟩ ::
      List.replicate 62 default,
    pos := 0,
    disk := [] }

set_option maxRecDepth 4000 in
/-- C5 (code bug): with the cursor at slot 0, slot 0 accessed and slot 1
not accessed, `buffer_cache_to_evict` clears slot 0's accessed flag and
immediately returns slot 0 itself as the victim — the loop body never
advances `buffer_cache_pos`, so the entry whose flag was just cleared is
chosen at the same sweep position, where the clock policy of the claim
would advance and evict slot 1. -/
theorem buffer_cache_to_evict_victim_just_cleared :
    (buffer_cache_to_evict bcTwoEntries).1 = 0 ∧
    (bcTwoEntries.cache.getD 0 default).accessed = true ∧
    (bcTwoEntries.cache.getD 1 default).accessed = false ∧
    (bcTwoEntries.cache.getD 1 default).usebit = true ∧
    (buffer_cache_to_evict bcTwoEntries).2.pos = 1 := by
  refine ⟨?_, ?_, ?_, ?_, ?_⟩ <;> decide

/-! ## `vm/page.c`, `vm/frame.c`, `vm/swap.c` — the virtual-memory layer

Addresses (`upage`, `kpage`) are `Nat`.  The hardware page directory of
the process is a mapping list plus a set of addresses whose hardware dirty
bit is set; the swap table follows swap.c's polarity (`true` = slot
empty); swap-device writes are kept in a log `(slot, kpage)`. -/

/-- `enum page_type` (page.h). -/
inductive PageType where
  | zero
  | file
  | swap
deriving DecidableEq

/-- `struct suppl_pte` (page.h).  The C `union` is flattened: the
file-variant and swap-variant fields coexist and only those of the active
`type` are meaningful, exactly as with the source's union. -/
structure SPTE where
  type : PageType
  upage : Nat
  kpage : Option Nat
  pagedir : Nat
  dirty : Bool
  fileId : Nat
  ofs : Nat
  read_bytes : Nat
  zero_bytes : Nat
  writable : Bool
  mmap : Bool
  swap_index : Nat
deriving DecidableEq

/-- The VM-layer state: the current process's supplemental page table,
its hardware page directory (present mappings and dirty addresses), the
frame table `(kpage, owner upage)`, the swap-slot bitmap and the log of
pages written to the swap device.  The frame-table clock cursor plays no
role in the operations modelled here (the eviction functions below take
the already-chosen victim). -/
structure VMState where
  spt : List SPTE
  pagedir : List (Nat × Nat)
  hwDirty : List Nat
  frames : List (Nat × Nat)
  swap_table : List Bool
  swapWrites : List (Nat × Nat)
deriving DecidableEq

/-- `suppl_pt_get_page` (page.c:172-182): hash lookup keyed by `upage`. -/
def suppl_pt_get_page (st : VMState) (upage : Nat) : Option SPTE :=
  st.spt.find? (fun p => p.upage == upage)

/-- `pagedir_is_dirty` for an address (hardware dirty bit). -/
def pagedir_is_dirty (st : VMState) (addr : Nat) : Bool :=
  st.hwDirty.contains addr

/-- `pagedir_clear_page (pd, upage)`: the hardware mapping is removed.
The hardware directory maps each virtual page at most once, so clearing
leaves no mapping for `upage` (a map update, not a list erase). -/
def pagedir_clear_page (st : VMState) (upage : Nat) : VMState :=
  { st with pagedir := st.pagedir.filter (fun p => p.1 != upage) }

/-- `suppl_pt_update_dirty` (page.c:186-198): with no frame it just reports
the latched bit; otherwise it ORs the hardware dirty bits of `upage` and
`kpage` into `pte->dirty` and reports the result.  Returns the reported
value and the updated entry. -/
def suppl_pt_update_dirty (st : VMState) (pte : SPTE) : Bool × SPTE :=
  match pte.kpage with
  | none => (pte.dirty, pte)
  | some kp =>
    let d := pte.dirty || pagedir_is_dirty st pte.upage ||
      pagedir_is_dirty st kp
    (d, { pte with dirty := d })

/-- `swap_out` (swap.c:87-116): scan for an empty slot (`true` bit), write
the page's 8 sectors (logged as `(slot, kpage)`), mark the slot used. -/
def swap_out (st : VMState) (kpage : Nat) : Option Nat × VMState :=
  match bitmap_scan st.swap_table 1 true with
  | none => (none, st)
  | some idx =>
    (some idx,
      { st with swap_table := bitmap_set_multiple st.swap_table idx 1 false,
                swapWrites := (idx, kpage) :: st.swapWrites })

/-- `swap_remove` (swap.c:119-125): mark the slot empty unconditionally. -/
def swap_remove (st : VMState) (idx : Nat) : VMState :=
  { st with swap_table := bitmap_set_multiple st.swap_table idx 1 true }

/-- `frame_remove` (frame.c:144-161): drop the frame-table entry for
`kpage` (the cursor fix-up has no observable in this model). -/
def frame_remove (st : VMState) (kpage : Nat) : VMState :=
  { st with frames := st.frames.eraseP (fun p => p.1 == kpage) }

/-- `suppl_pt_free_pte` (page.c:219-230) with `pt ≠ NULL`: remove the
frame-table entry when resident, else release the swap slot for a
swap-type entry, then delete the entry from the table. -/
def suppl_pt_free_pte (st : VMState) (pte : SPTE) : VMState :=
  let st1 :=
    match pte.kpage with
    | some kp => frame_remove st kp
    | none => if pte.type = PageType.swap then swap_remove st pte.swap_index
              else st
  { st1 with spt := st1.spt.eraseP (fun p => p.upage == pte.upage) }

/-- The VM-layer error observed by the embedding. -/
inductive VmErr where
  | nullDeref
deriving DecidableEq

/-- `suppl_pt_clear_page` (page.c:159-167).  The source reads
`pte->pagedir` (page.c:163) *before* the `pte == NULL` guard
(page.c:164), so a lookup miss reaches the null-dereference branch and
the guard is dead. -/
def suppl_pt_clear_page (st : VMState) (upage : Nat) : Except VmErr VMState :=
  match suppl_pt_get_page st upage with
  | none => Except.error VmErr.nullDeref
  | some pte =>
    let st1 := pagedir_clear_page st upage
    Except.ok (suppl_pt_free_pte st1 pte)

/-- C9: for every `upage` with no registered SPTE in the current process's
supplemental page table, `suppl_pt_clear_page` reaches the
null-pointer-dereference branch (it reads the looked-up entry's
`pagedir` field before testing the entry for absence), so the function is
safe only under the precondition that an SPTE for `upage` is
registered. -/
theorem suppl_pt_clear_page_null_deref (st : VMState) (upage : Nat)
    (h : suppl_pt_get_page st upage = none) :
    suppl_pt_clear_page st upage = Except.error VmErr.nullDeref := by
  simp [suppl_pt_clear_page, h]

/-- Witness for C9: clearing page `4096` in a process whose supplemental
page table is empty dereferences NULL. -/
theorem suppl_pt_clear_page_null_deref_witness :
    suppl_pt_clear_page ⟨[], [], [], [], [], []⟩ 4096 =
      Except.error VmErr.nullDeref :=
  suppl_pt_clear_page_null_deref ⟨[], [], [], [], [], []⟩ 4096 (by rfl)

/-! ### Frame eviction (`frame_evict_and_get`, frame.c:163-211) -/

/-- `struct frame` (frame.c:28-33): the physical page and the back pointer
to the owning SPTE (a functional copy here). -/
structure Frame where
  kpage : Nat
  pte : SPTE
deriving DecidableEq

/-- The post-processing shared by every victim disposition
(frame.c:203-208): latch the dirty bit, clear the SPTE's `kpage`, clear
the hardware mapping of `upage`. -/
def frame_evict_post (st : VMState) (pte : SPTE) : SPTE × VMState :=
  let pte1 := (suppl_pt_update_dirty st pte).2
  let pte2 := { pte1 with kpage := none }
  (pte2, pagedir_clear_page st pte2.upage)

/-- The `PAGE_SWAP` arm of the victim switch (frame.c:190-196): write the
frame to a fresh swap slot; on `BITMAP_ERROR` the eviction fails with no
post-processing. -/
def frame_evict_swap_path (st : VMState) (kpage : Nat) (pte : SPTE) :
    Option (SPTE × VMState) :=
  match swap_out st kpage with
  | (none, _) => none
  | (some idx, st') =>
    some (frame_evict_post st' { pte with type := PageType.swap,
                                          swap_index := idx })

/-- `frame_evict_and_get` (frame.c:163-211) on an already-chosen victim
`f`.  The C `switch` falls through: a writable `PAGE_FILE` victim falls
into the `PAGE_ZERO` dirty test, and a dirty one falls further into the
`PAGE_SWAP` arm; a read-only `PAGE_FILE` victim and a latched-clean
victim `break` straight to the post-processing. -/
def frame_evict_and_get (st : VMState) (f : Frame) : Option (SPTE × VMState) :=
  let pte := f.pte
  match pte.type with
  | PageType.file =>
    if !pte.writable then some (frame_evict_post st pte)
    else if !(suppl_pt_update_dirty st pte).1 then
      some (frame_evict_post st (suppl_pt_update_dirty st pte).2)
    else frame_evict_swap_path st f.kpage (suppl_pt_update_dirty st pte).2
  | PageType.zero =>
    if !(suppl_pt_update_dirty st pte).1 then
      some (frame_evict_post st (suppl_pt_update_dirty st pte).2)
    else frame_evict_swap_path st f.kpage (suppl_pt_update_dirty st pte).2
  | PageType.swap => frame_evict_swap_path st f.kpage pte

/-! ### Lemmas about `suppl_pt_update_dirty` and friends -/

theorem suppl_pt_update_dirty_pres (st : VMState) (pte : SPTE) :
    (suppl_pt_update_dirty st pte).2.type = pte.type ∧
    (suppl_pt_update_dirty st pte).2.upage = pte.upage ∧
    (suppl_pt_update_dirty st pte).2.kpage = pte.kpage ∧
    (suppl_pt_update_dirty st pte).2.swap_index = pte.swap_index ∧
    (suppl_pt_update_dirty st pte).2.writable = pte.writable := by
  cases h : pte.kpage <;> simp [suppl_pt_update_dirty, h]

theorem suppl_pt_update_dirty_val (st : VMState) (pte : SPTE) :
    (suppl_pt_update_dirty st pte).2.dirty = (suppl_pt_update_dirty st pte).1 := by
  cases h : pte.kpage <;> simp [suppl_pt_update_dirty, h]

theorem suppl_pt_update_dirty_idem (st : VMState) (pte : SPTE) :
    (suppl_pt_update_dirty st (suppl_pt_update_dirty st pte).2).1 =
      (suppl_pt_update_dirty st pte).1 := by
  cases h : pte.kpage with
  | none => simp [suppl_pt_update_dirty, h]
  | some kp =>
    simp only [suppl_pt_update_dirty, h]
    cases pte.dirty <;> cases pagedir_is_dirty st pte.upage <;>
      cases pagedir_is_dirty st kp <;> rfl

theorem suppl_pt_update_dirty_retype (st : VMState) (pte : SPTE) (t : PageType)
    (i : Nat) :
    (suppl_pt_update_dirty st { pte with type := t, swap_index := i }).1 =
      (suppl_pt_update_dirty st pte).1 := by
  cases h : pte.kpage <;> simp [suppl_pt_update_dirty, h]

theorem pagedir_clear_page_find (st : VMState) (u : Nat) :
    ((pagedir_clear_page st u).pagedir.find? (fun p => p.1 == u)) = none := by
  apply List.find?_eq_none.2
  intro x hx
  have hmem := List.mem_filter.1 hx
  simpa using hmem.2

theorem swap_out_some {st : VMState} {k idx : Nat} {st1 : VMState}
    (h : swap_out st k = (some idx, st1)) :
    st.swap_table.getD idx false = true ∧
    idx < st.swap_table.length ∧
    st1.swap_table = bitmap_set_multiple st.swap_table idx 1 false ∧
    st1.swapWrites = (idx, k) :: st.swapWrites ∧
    st1.pagedir = st.pagedir ∧ st1.hwDirty = st.hwDirty ∧
    st1.spt = st.spt ∧ st1.frames = st.frames := by
  unfold swap_out at h
  cases hs : bitmap_scan st.swap_table 1 true <;> rw [hs] at h
  · simp at h
  · simp only [Prod.mk.injEq, Option.some.injEq] at h
    obtain ⟨rfl, rfl⟩ := h
    have hrun := bitmap_scan_some hs
    obtain ⟨hlen, hbit⟩ := (run_val_iff _ _ _ _).1 hrun
    have hb := hbit 0 (by omega)
    rw [Nat.add_zero] at hb
    refine ⟨?_, by omega, rfl, rfl, rfl, rfl, rfl, rfl⟩
    rw [List.getD_eq_getElem?_getD, hb]
    rfl

theorem swap_out_state_update_dirty (st : VMState) (k : Nat) (pte : SPTE)
    {idx : Nat} {st1 : VMState} (h : swap_out st k = (some idx, st1)) :
    suppl_pt_update_dirty st1 pte = suppl_pt_update_dirty st pte := by
  obtain ⟨-, -, -, -, -, hdirty, -, -⟩ := swap_out_some h
  cases hk : pte.kpage <;>
    simp [suppl_pt_update_dirty, hk, pagedir_is_dirty, hdirty]

theorem frame_evict_post_spec (st : VMState) (pte : SPTE) :
    (frame_evict_post st pte).1.dirty = (suppl_pt_update_dirty st pte).1 ∧
    (frame_evict_post st pte).1.kpage = none ∧
    (frame_evict_post st pte).1.type = pte.type ∧
    (frame_evict_post st pte).1.swap_index = pte.swap_index ∧
    (frame_evict_post st pte).1.upage = pte.upage ∧
    (frame_evict_post st pte).2.swap_table = st.swap_table ∧
    (frame_evict_post st pte).2.swapWrites = st.swapWrites ∧
    ((frame_evict_post st pte).2.pagedir.find?
      (fun p => p.1 == pte.upage)) = none := by
  obtain ⟨ht, hu, hk, hsi, hw⟩ := suppl_pt_update_dirty_pres st pte
  refine ⟨?_, rfl, ?_, ?_, ?_, rfl, rfl, ?_⟩
  · exact suppl_pt_update_dirty_val st pte
  · exact ht
  · exact hsi
  · exact hu
  · rw [show (frame_evict_post st pte).2 =
        pagedir_clear_page st (suppl_pt_update_dirty st pte).2.upage from rfl,
      hu]
    exact pagedir_clear_page_find st pte.upage

/-- A no-swap eviction leaf (the victim `break`s straight to the
post-processing with SPTE `X`): disposition and post conditions. -/
theorem evict_noswap_case (st : VMState) (f : Frame) (X : SPTE)
    (hred : frame_evict_and_get st f = some (frame_evict_post st X))
    (hty : X.type = f.pte.type) (hup : X.upage = f.pte.upage)
    (hdirty : (suppl_pt_update_dirty st X).1 =
      (suppl_pt_update_dirty st f.pte).1) :
    (∃ pte' st', frame_evict_and_get st f = some (pte', st') ∧
        pte'.type = f.pte.type ∧
        st'.swapWrites = st.swapWrites ∧ st'.swap_table = st.swap_table) ∧
    (∀ pte' st', frame_evict_and_get st f = some (pte', st') →
      pte'.dirty = (suppl_pt_update_dirty st f.pte).1 ∧
      pte'.kpage = none ∧ pte'.upage = f.pte.upage ∧
      (st'.pagedir.find? (fun p => p.1 == f.pte.upage)) = none) := by
  obtain ⟨d1, d2, d3, d4, d5, d6, d7, d8⟩ := frame_evict_post_spec st X
  constructor
  · refine ⟨(frame_evict_post st X).1, (frame_evict_post st X).2,
      by rw [hred], ?_, d7, d6⟩
    rw [d3, hty]
  · intro pte' st' heq
    rw [hred, Option.some.injEq] at heq
    obtain ⟨h1, h2⟩ := Prod.ext_iff.1 heq.symm
    subst h1
    subst h2
    refine ⟨?_, d2, ?_, ?_⟩
    · rw [d1, hdirty]
    · rw [d5, hup]
    · rw [← hup]
      exact d8

/-- A swap-bound eviction leaf (the victim falls into the `PAGE_SWAP` arm
with SPTE `X`): disposition given a free slot, and post conditions. -/
theorem evict_swap_case (st : VMState) (f : Frame) (X : SPTE)
    (hred : frame_evict_and_get st f = frame_evict_swap_path st f.kpage X)
    (hup : X.upage = f.pte.upage)
    (hdirty : (suppl_pt_update_dirty st X).1 =
      (suppl_pt_update_dirty st f.pte).1) :
    (∀ idx st1, swap_out st f.kpage = (some idx, st1) →
      ∃ pte' st', frame_evict_and_get st f = some (pte', st') ∧
        pte'.type = PageType.swap ∧ pte'.swap_index = idx ∧
        st.swap_table.getD idx false = true ∧
        st'.swap_table.getD idx false = false ∧
        st'.swapWrites = (idx, f.kpage) :: st.swapWrites) ∧
    (∀ pte' st', frame_evict_and_get st f = some (pte', st') →
      pte'.dirty = (suppl_pt_update_dirty st f.pte).1 ∧
      pte'.kpage = none ∧ pte'.upage = f.pte.upage ∧
      (st'.pagedir.find? (fun p => p.1 == f.pte.upage)) = none) := by
  constructor
  · intro idx st1 hswap
    obtain ⟨sfree, slen, stbl, swr, -, -, -, -⟩ := swap_out_some hswap
    obtain ⟨e1, e2, e3, e4, e5, e6, e7, e8⟩ :=
      frame_evict_post_spec st1 { X with type := PageType.swap, swap_index := idx }
    refine ⟨(frame_evict_post st1 { X with type := PageType.swap, swap_index := idx }).1,
      (frame_evict_post st1 { X with type := PageType.swap, swap_index := idx }).2,
      ?_, ?_, ?_, sfree, ?_, ?_⟩
    · rw [hred]
      unfold frame_evict_swap_path
      rw [hswap]
    · rw [e3]
    · rw [e4]
    · rw [e6, stbl, List.getD_eq_getElem?_getD, bitmap_set_multiple_getElem?,
        if_pos ⟨Nat.le_refl idx, by omega⟩,
        List.getElem?_eq_getElem slen]
      rfl
    · rw [e7, swr]
  · intro pte' st' heq
    rw [hred] at heq
    unfold frame_evict_swap_path at heq
    cases hswap : swap_out st f.kpage with
    | mk opt st1 =>
      rw [hswap] at heq
      cases opt with
      | none => simp at heq
      | some idx =>
        obtain ⟨e1, e2, e3, e4, e5, e6, e7, e8⟩ :=
          frame_evict_post_spec st1 { X with type := PageType.swap, swap_index := idx }
        simp only [Option.some.injEq] at heq
        obtain ⟨h1, h2⟩ := Prod.ext_iff.1 heq.symm
        subst h1
        subst h2
        refine ⟨?_, e2, ?_, ?_⟩
        · rw [e1, swap_out_state_update_dirty st f.kpage _ hswap,
            suppl_pt_update_dirty_retype, hdirty]
        · rw [e5]
          exact hup
        · have hup2 : ({ X with type := PageType.swap, swap_index := idx } : SPTE).upage = f.pte.upage := hup
          rw [← hup2]
          exact e8

/-- C6: on frame eviction the victim's disposition follows its SPTE:
(1) a `File`-type page with `writable = false` is never written to swap
and keeps type `File`; (2) a victim whose latched dirty test is false and
which is not already `Swap`-type is dropped with no swap I/O; (3) any
other victim (dirty writable page or existing `Swap`-type page) is
written to the freshly allocated swap slot — previously free, afterwards
used, the write logged — and its SPTE becomes type `Swap` with that slot
index; and (4) in every successful case the dirty bit is latched into the
SPTE, the SPTE's `kpage` is cleared to `none`, and the hardware mapping
of `upage` is removed. -/
theorem frame_evict_and_get_disposition (st : VMState) (f : Frame) :
    ((f.pte.type = PageType.file ∧ f.pte.writable = false) →
      ∃ pte' st', frame_evict_and_get st f = some (pte', st') ∧
        pte'.type = PageType.file ∧
        st'.swapWrites = st.swapWrites ∧ st'.swap_table = st.swap_table) ∧
    ((f.pte.type ≠ PageType.swap ∧
        (suppl_pt_update_dirty st f.pte).1 = false) →
      ∃ pte' st', frame_evict_and_get st f = some (pte', st') ∧
        pte'.type = f.pte.type ∧
        st'.swapWrites = st.swapWrites ∧ st'.swap_table = st.swap_table) ∧
    ((¬(f.pte.type = PageType.file ∧ f.pte.writable = false) ∧
      ¬(f.pte.type ≠ PageType.swap ∧
          (suppl_pt_update_dirty st f.pte).1 = false)) →
      ∀ idx st1, swap_out st f.kpage = (some idx, st1) →
        ∃ pte' st', frame_evict_and_get st f = some (pte', st') ∧
          pte'.type = PageType.swap ∧ pte'.swap_index = idx ∧
          st.swap_table.getD idx false = true ∧
          st'.swap_table.getD idx false = false ∧
          st'.swapWrites = (idx, f.kpage) :: st.swapWrites) ∧
    (∀ pte' st', frame_evict_and_get st f = some (pte', st') →
      pte'.dirty = (suppl_pt_update_dirty st f.pte).1 ∧
      pte'.kpage = none ∧ pte'.upage = f.pte.upage ∧
      (st'.pagedir.find? (fun p => p.1 == f.pte.upage)) = none) := by
  obtain ⟨p1, p2, p3, p4, p5⟩ := suppl_pt_update_dirty_pres st f.pte
  rcases (show f.pte.type = PageType.file ∨ f.pte.type = PageType.zero ∨
      f.pte.type = PageType.swap from by cases f.pte.type <;> simp)
    with htyp | htyp | htyp
  · by_cases hw : f.pte.writable = true
    · by_cases hd : (suppl_pt_update_dirty st f.pte).1 = true
      · have hred : frame_evict_and_get st f =
            frame_evict_swap_path st f.kpage
              (suppl_pt_update_dirty st f.pte).2 := by
          simp [frame_evict_and_get, htyp, hw, hd]
        have hB := evict_swap_case st f _ hred p2
          (suppl_pt_update_dirty_idem st f.pte)
        refine ⟨fun h => absurd h.2 (by simp [hw]),
          fun h => absurd h.2 (by simp [hd]), fun _ => hB.1, hB.2⟩
      · have hred : frame_evict_and_get st f =
            some (frame_evict_post st (suppl_pt_update_dirty st f.pte).2) := by
          simp [frame_evict_and_get, htyp, hw, hd]
        have hA := evict_noswap_case st f _ hred p1 p2
          (suppl_pt_update_dirty_idem st f.pte)
        refine ⟨fun h => absurd h.2 (by simp [hw]), fun _ => hA.1,
          fun h => absurd ⟨(by simp [htyp]), (by simpa using hd)⟩ h.2,
          hA.2⟩
    · have hred : frame_evict_and_get st f =
          some (frame_evict_post st f.pte) := by
        simp [frame_evict_and_get, htyp, hw]
      have hA := evict_noswap_case st f f.pte hred rfl rfl rfl
      refine ⟨?_, fun _ => hA.1,
        fun h => absurd ⟨htyp, (by simpa using hw)⟩ h.1, hA.2⟩
      · intro h
        obtain ⟨pte', st', he, hty', hsw, hst⟩ := hA.1
        exact ⟨pte', st', he, by rw [hty', htyp], hsw, hst⟩
  · by_cases hd : (suppl_pt_update_dirty st f.pte).1 = true
    · have hred : frame_evict_and_get st f =
          frame_evict_swap_path st f.kpage
            (suppl_pt_update_dirty st f.pte).2 := by
        simp [frame_evict_and_get, htyp, hd]
      have hB := evict_swap_case st f _ hred p2
        (suppl_pt_update_dirty_idem st f.pte)
      refine ⟨fun h => absurd (htyp.symm.trans h.1) (by simp),
        fun h => absurd h.2 (by simp [hd]), fun _ => hB.1, hB.2⟩
    · have hred : frame_evict_and_get st f =
          some (frame_evict_post st (suppl_pt_update_dirty st f.pte).2) := by
        simp [frame_evict_and_get, htyp, hd]
      have hA := evict_noswap_case st f _ hred p1 p2
        (suppl_pt_update_dirty_idem st f.pte)
      refine ⟨fun h => absurd (htyp.symm.trans h.1) (by simp), fun _ => hA.1,
        fun h => absurd ⟨(by simp [htyp]), (by simpa using hd)⟩ h.2,
        hA.2⟩
  · have hred : frame_evict_and_get st f =
        frame_evict_swap_path st f.kpage f.pte := by
      simp [frame_evict_and_get, htyp]
    have hB := evict_swap_case st f f.pte hred rfl rfl
    refine ⟨fun h => absurd (htyp.symm.trans h.1) (by simp),
      fun h => absurd htyp h.1, fun _ => hB.1, hB.2⟩

/-- A concrete swap-type victim for the eviction witness: SPTE swapped out
before (slot 5), resident at kernel page 777, swap table with one free
slot. -/
def pteSw : SPTE :=
  ⟨PageType.swap, 8192, none, 1, true, 0, 0, 0, 0, true, false, 5⟩

/-- Concrete VM state for the eviction witness. -/
def stSw : VMState :=
  ⟨[], [(8192, 777)], [], [(777, 8192)], [true], []⟩

/-- Concrete frame for the eviction witness. -/
def fSw : Frame := ⟨777, pteSw⟩

/-- Witness for C6, exercising the swap-bound case: the `Swap`-type victim
is written to freshly allocated slot 0 (previously free, afterwards used,
write logged) and its SPTE keeps type `Swap` with the new index. -/
theorem frame_evict_and_get_disposition_witness :
    ∃ pte' st', frame_evict_and_get stSw fSw = some (pte', st') ∧
      pte'.type = PageType.swap ∧ pte'.swap_index = 0 ∧
      stSw.swap_table.getD 0 false = true ∧
      st'.swap_table.getD 0 false = false ∧
      st'.swapWrites = [(0, 777)] := by
  have h := (frame_evict_and_get_disposition stSw fSw).2.2.1
  have hcond : ¬(fSw.pte.type = PageType.file ∧
        fSw.pte.writable = false) ∧
      ¬(fSw.pte.type ≠ PageType.swap ∧
        (suppl_pt_update_dirty stSw fSw.pte).1 = false) := by
    constructor
    · decide
    · decide
  have hswap : swap_out stSw 777 =
      (some 0, ⟨[], [(8192, 777)], [], [(777, 8192)], [false], [(0, 777)]⟩) := by
    decide
  exact h hcond 0 _ hswap

/-! ### The munmap write-back path (`mmap_unmap_item`, syscall.c:486-534)

The state adds to the VM layer: the swap-device contents (slot → abstract
page content), kernel memory (kernel page → content), the log of
`file_write_at` calls performed on the mapping's file, and the next
kernel page the physical allocator hands out. -/

structure MuState where
  vm : VMState
  swapStore : List (Nat × Nat)
  mem : List (Nat × Nat)
  fileWrites : List (Nat × Option Nat)
  nextKpage : Nat
deriving DecidableEq

/-- Read kernel memory at an address. -/
def mem_read (mem : List (Nat × Nat)) (addr : Nat) : Option Nat :=
  (mem.find? (fun p => p.1 == addr)).map (fun p => p.2)

/-- `palloc_get_page (0)`: a fresh kernel page. -/
def palloc_get_page (st : MuState) : Nat × MuState :=
  (st.nextKpage, { st with nextKpage := st.nextKpage + 1 })

/-- `swap_in` (swap.c:47-82) acting on the munmap state: bounds and
slot-in-use checks, then the 8-sector copy into `kpage` and marking the
slot empty. -/
def swap_in_mu (st : MuState) (kpage idx : Nat) : Bool × MuState :=
  if idx ≥ st.vm.swap_table.length then (false, st)
  else if st.vm.swap_table.getD idx false then (false, st)
  else
    let content := ((st.swapStore.find? (fun p => p.1 == idx)).map
      (fun p => p.2)).getD 0
    (true, { st with mem := (kpage, content) :: st.mem,
                     vm := swap_remove st.vm idx })

/-- `file_write_at (mmap->file, src, PGSIZE, ofs)`: logs the write with the
content read from the source address; a `NULL` source (reading `PGSIZE`
bytes from address 0) faults. -/
def file_write_at_mu (st : MuState) (ofs : Nat) (src : Option Nat) :
    Except VmErr MuState :=
  match src with
  | none => Except.error VmErr.nullDeref
  | some a =>
    Except.ok { st with fileWrites := (ofs, mem_read st.mem a) :: st.fileWrites }

/-- The per-page tail of `mmap_unmap_item` (syscall.c:525-526):
`pagedir_clear_page` then `hash_delete` of the SPTE. -/
def mmap_unmap_free_resources (st : MuState) (pte : SPTE) : MuState :=
  let vm1 := pagedir_clear_page st.vm pte.upage
  { st with vm := { vm1 with
      spt := vm1.spt.eraseP (fun p => p.upage == pte.upage) } }

/-- One iteration of `mmap_unmap_item`'s write-back loop
(syscall.c:495-527) for the page with SPTE `pte` at mapping offset `ofs`.
In the swapped-and-dirty branch the source pages the content in from swap
into a freshly allocated kernel page, but then calls
`file_write_at (mmap->file, pte->kpage, PGSIZE, ofs)` — `pte->kpage`,
which is `NULL` for a swapped-out page — instead of that page. -/
def mmap_unmap_page (st : MuState) (pte : SPTE) (ofs : Nat) :
    Except VmErr MuState :=
  match pte.kpage with
  | some kp =>
    let step1 : Except VmErr MuState :=
      if (suppl_pt_update_dirty st.vm pte).1 then
        file_write_at_mu st ofs (some kp)
      else Except.ok st
    match step1 with
    | Except.error e => Except.error e
    | Except.ok st1 =>
      let st2 := { st1 with vm := frame_remove st1.vm kp }
      let st3 := { st2 with mem := st2.mem.eraseP (fun p => p.1 == kp) }
      Except.ok (mmap_unmap_free_resources st3 pte)
  | none =>
    if pte.type = PageType.swap then
      if (suppl_pt_update_dirty st.vm pte).1 then
        let (kpage, st1) := palloc_get_page st
        let (_, st2) := swap_in_mu st1 kpage pte.swap_index
        match file_write_at_mu st2 ofs pte.kpage with
        | Except.error e => Except.error e
        | Except.ok st3 =>
          let st4 := { st3 with mem := st3.mem.eraseP (fun p => p.1 == kpage) }
          Except.ok (mmap_unmap_free_resources st4 pte)
      else
        Except.ok (mmap_unmap_free_resources
          { st with vm := swap_remove st.vm pte.swap_index } pte)
    else Except.ok (mmap_unmap_free_resources st pte)

/-- A dirty swapped-out mmap page (slot 0 holds content 77). -/
def pteSwDirty : SPTE :=
  ⟨PageType.swap, 4096, none, 1, true, 0, 0, 0, 0, true, true, 0⟩

/-- A clean swapped-out mmap page at the same slot. -/
def pteSwClean : SPTE :=
  ⟨PageType.swap, 4096, none, 1, false, 0, 0, 0, 0, true, true, 0⟩

/-- Munmap state for the dirty-page run. -/
def muStDirty : MuState :=
  ⟨⟨[pteSwDirty], [], [], [], [false], []⟩, [(0, 77)], [], [], 100⟩

/-- Munmap state for the clean-page run. -/
def muStClean : MuState :=
  ⟨⟨[pteSwClean], [], [], [], [false], []⟩, [(0, 77)], [], [], 100⟩

/-- C2 (code bug): unmapping a mapping whose page is swapped out and
latched-dirty pages the content in from swap into a fresh kernel page,
but then attempts the file write-back from `pte->kpage`, which is `NULL`
for a swapped-out page — the embedding reaches the null-source fault
instead of writing the paged-in content; the clean swapped page, by
contrast, has its swap slot released with no file write, as the claim
states. -/
theorem mmap_unmap_page_swap_dirty_null_source :
    mmap_unmap_page muStDirty pteSwDirty 0 = Except.error VmErr.nullDeref ∧
    mmap_unmap_page muStClean pteSwClean 0 =
      Except.ok ⟨⟨[], [], [], [], [true], []⟩, [(0, 77)], [], [], 100⟩ := by
  constructor
  · rfl
  · rfl


/-! ## `inode.c` — the inode store

The buffer cache presents, to its clients, a write-back sector store (a
read after a write through the cache returns the written bytes), so the
file-system state seen by inode.c is modelled as the free map plus a
sector store.  Sector images are byte lists; indirect blocks are accessed
word-wise (4-byte little-endian sector pointers), matching the on-disk
layout.  The constants follow inode.c:11-14. -/

def NUM_ADDR : Nat := 15
def IND_BLOCK : Nat := 12
def DIND_BLOCK : Nat := 14
def SIZE_BLOCK : Nat := 128
def DISK_SECTOR_SIZE : Nat := 512
def INODE_MAGIC : Nat := 0x494e4f44

/-- `struct inode_disk` (inode.c:21-27): 15 sector pointers, `length`,
`magic` (the 111 unused words are zero padding in the byte image). -/
structure InodeDisk where
  sectors : List Nat
  length : Nat
  magic : Nat
deriving DecidableEq

/-- A sector image in the store: raw bytes, or a whole-sector inode image
written by `buffer_cache_write (sector, disk_inode)`. -/
inductive Block where
  | bytes (bs : List Nat)
  | inode (d : InodeDisk)
deriving DecidableEq

/-- 4-byte little-endian encoding of one sector pointer. -/
def le4 (w : Nat) : List Nat :=
  [w % 256, w / 256 % 256, w / 256 ^ 2 % 256, w / 256 ^ 3 % 256]

/-- Byte image of a word (sector-pointer) list. -/
def encode_words (ws : List Nat) : List Nat := (ws.map le4).flatten

/-- Byte image of an on-disk inode (sectors, length, magic, zero pad). -/
def inode_encode (d : InodeDisk) : List Nat :=
  encode_words d.sectors ++ le4 d.length ++ le4 d.magic ++
    List.replicate 444 0

def block_bytes : Block → List Nat
  | Block.bytes bs => bs
  | Block.inode d => inode_encode d

/-- The file-system state seen by inode.c: the in-memory free map with its
persistence oracle (`fp`, `wk`, as in `free_map_allocate` above) and the
cache-plus-disk sector store (latest write first; unwritten sectors read
as zeros on a freshly formatted volume). -/
structure FS where
  fm : List Bool
  fp : Bool
  wk : Bool
  store : List (Nat × Block)
deriving DecidableEq

/-- Read a sector through the cache (`buffer_cache_read` / the fetch-for-
read path): the latest write, or zeros if never written. -/
def fs_read_sector (fs : FS) (sec : Nat) : List Nat :=
  match fs.store.find? (fun p => p.1 == sec) with
  | some p => block_bytes p.2
  | none => List.replicate DISK_SECTOR_SIZE 0

/-- `buffer_cache_write (sector, src)`: whole-sector overwrite. -/
def cache_write (fs : FS) (sec : Nat) (b : Block) : FS :=
  { fs with store := (sec, b) :: fs.store }

/-- Overwrite bytes of `bs` from offset `o` with `vs`. -/
def overwrite_at : List Nat → Nat → List Nat → List Nat
  | [], _, _ => []
  | bs, _, [] => bs
  | _ :: bs, 0, v :: vs => v :: overwrite_at bs 0 vs
  | b :: bs, o+1, vs => b :: overwrite_at bs o vs

/-- Modelled from the spec: `buffer_cache_write_at` is declared in cache.h
but its definition is missing from cache.c; per the spec's
`copy_in (sector, src, offset, size)` it overwrites the sub-range
`[offset, offset + size)` of the cached sector. -/
def cache_write_at (fs : FS) (sec ofs : Nat) (vs : List Nat) : FS :=
  cache_write fs sec (Block.bytes (overwrite_at (fs_read_sector fs sec) ofs vs))

/-- Word `k` (a 4-byte little-endian sector pointer) of a sector image. -/
def word_at (bs : List Nat) (k : Nat) : Nat :=
  bs.getD (4 * k) 0 + 256 * bs.getD (4 * k + 1) 0 +
    256 ^ 2 * bs.getD (4 * k + 2) 0 + 256 ^ 3 * bs.getD (4 * k + 3) 0

/-- `buffer_cache_read (sector, &temp_ind_block)`: an indirect block as its
128 sector-pointer words. -/
def read_ind_block (fs : FS) (sec : Nat) : List Nat :=
  (List.range SIZE_BLOCK).map (word_at (fs_read_sector fs sec))

/-- `buffer_cache_write_at (sector, words, wordOfs*4, |words|*4)`:
word-aligned partial write of an indirect block. -/
def cache_write_words_at (fs : FS) (sec wordOfs : Nat) (ws : List Nat) : FS :=
  cache_write_at fs sec (4 * wordOfs) (encode_words ws)

/-- The all-zero sector written by `buffer_cache_write (temp_sector, zeros)`
(inode.c:519,534). -/
def zeroBlock : Block := Block.bytes (List.replicate DISK_SECTOR_SIZE 0)

/-- `bytes_to_sectors` (inode.c:46-50): `DIV_ROUND_UP (size, 512)`. -/
def bytes_to_sectors (size : Nat) : Nat :=
  (size + DISK_SECTOR_SIZE - 1) / DISK_SECTOR_SIZE

/-- `size_min` (inode.c:52-57). -/
def size_min (s1 s2 : Nat) : Nat := if s1 < s2 then s1 else s2

/-- `adjust_cnt` (inode.c:342-351). -/
def adjust_cnt (alloc curr cnt : Nat) : Nat :=
  if alloc + cnt < curr then 0
  else if alloc < curr then alloc + cnt - curr
  else cnt

/-- `free_map_allocate_r` acting on the FS state. -/
def fs_allocate_r (fs : FS) (cntp size : Nat) :
    Nat × Option Nat × FS × Nat :=
  let r := free_map_allocate_r fs.fp fs.wk fs.fm cntp size
  (r.1, r.2.1, { fs with fm := r.2.2.1 }, r.2.2.2)

/-- `free_map_release` acting on the FS state. -/
def fs_release (fs : FS) (sector cnt : Nat) : FS :=
  { fs with fm := free_map_release fs.fm sector cnt }

/-- `inode_release_at` (inode.c:636-645) over the slot array `slots`
starting at index `base`: release each recorded sector and zero the
slot. -/
def inode_release_at (fs : FS) (slots : List Nat) (base : Nat) :
    Nat → FS × List Nat
  | 0 => (fs, slots)
  | c+1 =>
    let sec := slots.getD base 0
    inode_release_at (fs_release fs sec 1) (slots.set base 0) (base + 1) c

/-- The `for (i = 0; i < size; i++)` body of `inode_allocate_at`
(inode.c:530-535): record `size` consecutive sectors starting at `sec`
into the slots from `idx` and zero-fill each through the cache. -/
def alloc_at_fill (fs : FS) (slots : List Nat) (idx sec : Nat) :
    Nat → FS × List Nat
  | 0 => (fs, slots)
  | n+1 =>
    alloc_at_fill (cache_write fs sec zeroBlock) (slots.set idx sec)
      (idx + 1) (sec + 1) n

/-- The `while (cnt > 0)` loop of `inode_allocate_at` (inode.c:521-536).
Returns (success, slots, fs, index one past the last slot written).  Each
successful `free_map_allocate_r` decreases `cnt` by at least 1 and a
failed one exits, so `fuel > cnt` is never exhausted; the caller passes
`cnt + 1`. -/
def inode_allocate_at_loop (fs : FS) (slots : List Nat) (idx cnt size : Nat) :
    Nat → Bool × List Nat × FS × Nat
  | 0 => (true, slots, fs, idx)
  | f+1 =>
    if cnt = 0 then (true, slots, fs, idx)
    else
      let r := fs_allocate_r fs cnt size
      if r.1 = 0 then (false, slots, r.2.2.1, idx)
      else
        let sec := (r.2.1).getD 0
        let p := alloc_at_fill r.2.2.1 slots idx sec r.1
        inode_allocate_at_loop p.1 p.2 (idx + r.1) (cnt - r.1) r.1 f

/-- `inode_allocate_at` (inode.c:511-539): allocate `cnt` sectors into the
slot array from `base`, zero-filling each; on failure release the
`cnt_ - cnt` sectors already recorded and report false. -/
def inode_allocate_at (fs : FS) (slots : List Nat) (base cnt : Nat) :
    Bool × List Nat × FS :=
  let r := inode_allocate_at_loop fs slots base cnt cnt (cnt + 1)
  if r.1 then (true, r.2.1, r.2.2.1)
  else
    let p := inode_release_at r.2.2.1 r.2.1 base (r.2.2.2 - base)
    (false, p.2, p.1)

/-- `inode_get_sector` (inode.c:649-680): resolve the `sector_ofs`-th data
sector of the inode, reading indirect blocks through the cache. -/
def inode_get_sector (fs : FS) (d : InodeDisk) (sector_ofs : Nat) : Nat :=
  if sector_ofs < IND_BLOCK then d.sectors.getD sector_ofs 0
  else
    let so1 := sector_ofs - IND_BLOCK
    let ind_ofs := so1 / SIZE_BLOCK
    if ind_ofs < DIND_BLOCK - IND_BLOCK then
      let ind_pos := d.sectors.getD (IND_BLOCK + ind_ofs) 0
      word_at (fs_read_sector fs ind_pos) (so1 % SIZE_BLOCK)
    else
      let so2 := so1 - (DIND_BLOCK - IND_BLOCK) * SIZE_BLOCK
      let dind_ofs := so2 / (SIZE_BLOCK * SIZE_BLOCK)
      let dind_pos := d.sectors.getD (DIND_BLOCK + dind_ofs) 0
      let dind_block := fs_read_sector fs dind_pos
      let so3 := so2 % (SIZE_BLOCK * SIZE_BLOCK)
      let ind_pos := word_at dind_block (so3 / SIZE_BLOCK)
      word_at (fs_read_sector fs ind_pos) (so3 % SIZE_BLOCK)

/-- `byte_to_sector` (inode.c:74-82): `none` models the C function's `-1`
for an offset at or past the length. -/
def byte_to_sector (fs : FS) (d : InodeDisk) (pos : Nat) : Option Nat :=
  if pos < d.length then some (inode_get_sector fs d (pos / DISK_SECTOR_SIZE))
  else none

/-- Outcome of one region of `inode_allocate_interval`: returned true
(`done`), fell through to the next region (`next`), or `goto fail`. -/
inductive AllocStep where
  | done (d : InodeDisk) (fs : FS)
  | next (d : InodeDisk) (fs : FS) (alloc : Nat)
  | fail (d : InodeDisk) (fs : FS) (alloc : Nat)
deriving DecidableEq

/-- One iteration of the single-indirect loop of `inode_allocate_interval`
(inode.c:383-418), at index `i ∈ {0, 1}`. -/
def inode_alloc_ind_one (fs : FS) (d : InodeDisk)
    (curr target alloc i : Nat) : AllocStep :=
  let ind_idx := IND_BLOCK + i
  let is_created := decide (curr ≤ alloc)
  let r0 := inode_allocate_at fs d.sectors ind_idx 1
  let d1 := if is_created then { d with sectors := r0.2.1 } else d
  let fs1 := if is_created then r0.2.2 else fs
  if is_created && !r0.1 then AllocStep.fail d1 fs1 alloc
  else
    let cnt_orig := size_min (target - alloc) SIZE_BLOCK
    let cnt := adjust_cnt alloc curr cnt_orig
    let temp := List.replicate SIZE_BLOCK 0
    let r := inode_allocate_at fs1 temp (cnt_orig - cnt) cnt
    if !r.1 then
      let p := if is_created then inode_release_at r.2.2 d1.sectors ind_idx 1
               else (r.2.2, d1.sectors)
      AllocStep.fail { d1 with sectors := p.2 } p.1 alloc
    else
      let alloc1 := alloc + cnt_orig
      let fs2 :=
        if cnt > 0 then
          cache_write_words_at r.2.2 (d1.sectors.getD ind_idx 0)
            (cnt_orig - cnt) ((r.2.1.drop (cnt_orig - cnt)).take cnt)
        else r.2.2
      if alloc1 = target then AllocStep.done d1 fs2
      else AllocStep.next d1 fs2 alloc1

/-- The inner `for (j = 0; j < SIZE_BLOCK; j++)` loop of the
double-indirect region (inode.c:436-485).  `i` is the outer region index
(always 0 here, `NUM_ADDR - DIND_BLOCK = 1`); note the source indexes
`temp_dind_block.sectors` with `i`, not `j` (inode.c:440), so every
iteration reuses slot `i` of the temporary double-indirect block, and the
pointer-table write-back of word `j` (inode.c:477-479) emits the never-
written slot `j` (zero here, uninitialized in C) for `j > 0`.  The fuel
counts the remaining iterations, `SIZE_BLOCK - j`. -/
def inode_alloc_dind_j (curr target : Nat) (is_dind_created : Bool) :
    FS → InodeDisk → List Nat → Nat → Nat → Nat → AllocStep
  | fs, d, _, alloc, _, 0 => AllocStep.next d fs alloc
  | fs, d, temp_dind, alloc, j, r+1 =>
    let i := 0
    let is_ind_created := decide (curr ≤ alloc)
    let r0 := inode_allocate_at fs temp_dind i 1
    let temp_dind1 := if is_ind_created then r0.2.1 else temp_dind
    let fs1 := if is_ind_created then r0.2.2 else fs
    if is_ind_created && !r0.1 then
      let p := if j = 0 && is_dind_created then
          inode_release_at fs1 d.sectors (DIND_BLOCK + i) 1
        else (fs1, d.sectors)
      AllocStep.fail { d with sectors := p.2 } p.1 alloc
    else
      let cnt_orig := size_min (target - alloc) SIZE_BLOCK
      let cnt := adjust_cnt alloc curr cnt_orig
      let temp_ind := List.replicate SIZE_BLOCK 0
      let r1 := inode_allocate_at fs1 temp_ind (cnt_orig - cnt) cnt
      if !r1.1 then
        if is_ind_created then
          let pA := if j = 0 && is_dind_created then
              inode_release_at r1.2.2 d.sectors (DIND_BLOCK + i) 1
            else (r1.2.2, d.sectors)
          let pB := inode_release_at pA.1 temp_dind1 i 1
          AllocStep.fail { d with sectors := pA.2 } pB.1 alloc
        else AllocStep.fail d r1.2.2 alloc
      else
        let alloc1 := alloc + cnt_orig
        let fs2 :=
          if cnt > 0 then
            let fsA := cache_write_words_at r1.2.2 (temp_dind1.getD i 0)
              (cnt_orig - cnt) ((r1.2.1.drop (cnt_orig - cnt)).take cnt)
            if is_ind_created then
              cache_write_words_at fsA (d.sectors.getD (DIND_BLOCK + i) 0) j
                [temp_dind1.getD j 0]
            else fsA
          else r1.2.2
        if alloc1 = target then AllocStep.done d fs2
        else inode_alloc_dind_j curr target is_dind_created fs2 d temp_dind1
          alloc1 (j + 1) r

/-- The double-indirect region of `inode_allocate_interval`
(inode.c:421-486), a single outer iteration (`i = 0`). -/
def inode_alloc_dind_stage (fs : FS) (d : InodeDisk)
    (curr target alloc : Nat) : AllocStep :=
  let i := 0
  let is_dind_created := decide (curr ≤ alloc)
  let r0 := inode_allocate_at fs d.sectors (DIND_BLOCK + i) 1
  let d1 := if is_dind_created then { d with sectors := r0.2.1 } else d
  let fs1 := if is_dind_created then r0.2.2 else fs
  if is_dind_created && !r0.1 then AllocStep.fail d1 fs1 alloc
  else
    inode_alloc_dind_j curr target is_dind_created fs1 d1
      (List.replicate SIZE_BLOCK 0) alloc 0 SIZE_BLOCK

/-- The single-indirect loop of `inode_release_interval` (inode.c:565-584),
`i ∈ {0, 1}` with fuel 2. -/
def inode_rel_ind_loop (curr target : Nat) :
    FS → InodeDisk → Nat → Nat → Nat → FS × InodeDisk × Nat × Bool
  | fs, d, alloc, _, 0 => (fs, d, alloc, false)
  | fs, d, alloc, i, r+1 =>
    let ind_pos := d.sectors.getD (IND_BLOCK + i) 0
    let temp := read_ind_block fs ind_pos
    let cnt_orig := size_min (target - alloc) SIZE_BLOCK
    let cnt := adjust_cnt alloc curr cnt_orig
    let p := inode_release_at fs temp (cnt_orig - cnt) cnt
    let alloc1 := alloc + cnt_orig
    let q := inode_release_at p.1 d.sectors (IND_BLOCK + i) 1
    let d1 := { d with sectors := q.2 }
    if alloc1 = target then (q.1, d1, alloc1, true)
    else inode_rel_ind_loop curr target q.1 d1 alloc1 (i + 1) r

/-- The inner `j` loop of the double-indirect region of
`inode_release_interval` (inode.c:596-618); the source reads
`temp_dind_block.sectors[i]` (inode.c:600), with `i` the outer index
(0), not `j`. -/
def inode_rel_dind_j (curr target : Nat) :
    FS → InodeDisk → List Nat → Nat → Nat → FS × InodeDisk × Nat × Bool
  | fs, d, _, alloc, 0 => (fs, d, alloc, false)
  | fs, d, temp_dind, alloc, r+1 =>
    let i := 0
    let ind_pos := temp_dind.getD i 0
    let temp_ind := read_ind_block fs ind_pos
    let cnt_orig := size_min (target - alloc) SIZE_BLOCK
    let cnt := adjust_cnt alloc curr cnt_orig
    let p := inode_release_at fs temp_ind (cnt_orig - cnt) cnt
    let alloc1 := alloc + cnt_orig
    let q := inode_release_at p.1 temp_dind i 1
    if alloc1 = target then
      let w := inode_release_at q.1 d.sectors (DIND_BLOCK + i) 1
      (w.1, { d with sectors := w.2 }, alloc1, true)
    else inode_rel_dind_j curr target q.1 d q.2 alloc1 r

/-- The double-indirect region of `inode_release_interval`
(inode.c:587-622), single outer iteration. -/
def inode_rel_dind_stage (fs : FS) (d : InodeDisk)
    (curr target alloc : Nat) : FS × InodeDisk :=
  let i := 0
  let dind_pos := d.sectors.getD (DIND_BLOCK + i) 0
  let temp_dind := read_ind_block fs dind_pos
  let r := inode_rel_dind_j curr target fs d temp_dind alloc SIZE_BLOCK
  if r.2.2.2 then (r.1, r.2.1)
  else
    let q := inode_release_at r.1 (r.2.1).sectors (DIND_BLOCK + i) 1
    (q.1, { r.2.1 with sectors := q.2 })

/-- `inode_release_interval` (inode.c:543-623): release the sectors of
`d` past the first `curr_sectors`, walking direct, single-indirect and
double-indirect regions. -/
def inode_release_interval (fs : FS) (d : InodeDisk) (curr_sectors : Nat) :
    FS × InodeDisk :=
  let target := bytes_to_sectors d.length
  let cnt_orig := size_min target IND_BLOCK
  let cnt := adjust_cnt 0 curr_sectors cnt_orig
  let p := inode_release_at fs d.sectors (cnt_orig - cnt) cnt
  let d1 := { d with sectors := p.2 }
  let alloc := cnt_orig
  if alloc = target then (p.1, d1)
  else
    let r := inode_rel_ind_loop curr_sectors target p.1 d1 alloc 0 2
    if r.2.2.2 then (r.1, r.2.1)
    else inode_rel_dind_stage r.1 r.2.1 curr_sectors target r.2.2.1

/-- The `fail:` label of `inode_allocate_interval` (inode.c:488-492): set
`length` to `alloc_sectors * DISK_SECTOR_SIZE`, release the sectors
allocated past `curr_sectors`, return false.  The length is *not*
restored to its pre-call value afterwards. -/
def inode_alloc_fail (fs : FS) (d : InodeDisk) (curr alloc : Nat) :
    Bool × InodeDisk × FS :=
  let d1 := { d with length := alloc * DISK_SECTOR_SIZE }
  let p := inode_release_interval fs d1 curr
  (false, p.2, p.1)

/-- `inode_allocate_interval` (inode.c:356-493). -/
def inode_allocate_interval (fs : FS) (d : InodeDisk)
    (target_sectors : Nat) : Bool × InodeDisk × FS :=
  let curr_sectors := bytes_to_sectors d.length
  if target_sectors ≤ curr_sectors then (true, d, fs)
  else
    let cnt_orig := size_min target_sectors IND_BLOCK
    let cnt := adjust_cnt 0 curr_sectors cnt_orig
    let r := inode_allocate_at fs d.sectors (cnt_orig - cnt) cnt
    let d1 := { d with sectors := r.2.1 }
    if !r.1 then (false, d1, r.2.2)
    else
      let alloc := cnt_orig
      if alloc = target_sectors then (true, d1, r.2.2)
      else
        let step1 := inode_alloc_ind_one r.2.2 d1 curr_sectors
          target_sectors alloc 0
        let step2 :=
          match step1 with
          | AllocStep.next d2 fs2 alloc2 =>
            inode_alloc_ind_one fs2 d2 curr_sectors target_sectors alloc2 1
          | s => s
        let step3 :=
          match step2 with
          | AllocStep.next d2 fs2 alloc2 =>
            inode_alloc_dind_stage fs2 d2 curr_sectors target_sectors alloc2
          | s => s
        match step3 with
        | AllocStep.done d2 fs2 => (true, d2, fs2)
        | AllocStep.next d2 fs2 alloc2 =>
          inode_alloc_fail fs2 d2 curr_sectors alloc2
        | AllocStep.fail d2 fs2 alloc2 =>
          inode_alloc_fail fs2 d2 curr_sectors alloc2

/-- `inode_extend` (inode.c:687-712). -/
def inode_extend (fs : FS) (d : InodeDisk) (sector length : Nat) :
    Bool × InodeDisk × FS :=
  let sector_curr := bytes_to_sectors d.length
  let sector_max := bytes_to_sectors length
  if sector_max ≤ sector_curr then
    if d.length < length then
      let d1 := { d with length := length }
      (true, d1, cache_write fs sector (Block.inode d1))
    else (true, d, fs)
  else
    let r := inode_allocate_interval fs d sector_max
    if r.1 then
      let d1 := { r.2.1 with length := length }
      (true, d1, cache_write r.2.2 sector (Block.inode d1))
    else (false, r.2.1, r.2.2)

/-- `struct inode` (inode.c:60-68), without the intrusive list element. -/
structure Inode where
  sector : Nat
  open_cnt : Nat
  removed : Bool
  deny_write_cnt : Nat
  data : InodeDisk
deriving DecidableEq

/-- The `while (size > 0)` chunking loop of `inode_write_at`
(inode.c:278-310).  `off_t` values are non-negative throughout (after a
successful extend, `length ≥ offset + size`); `inode_left` saturates at 0
exactly where the C `chunk_size <= 0` break fires.  Each iteration
advances by `chunk ≥ 1`, so `fuel > size` is never exhausted; the caller
passes `size + 1`. -/
def inode_write_loop (d : InodeDisk) (buffer : List Nat) :
    FS → Nat → Nat → Nat → Nat → FS × Nat
  | fs, _, _, bytes_written, 0 => (fs, bytes_written)
  | fs, size, offset, bytes_written, f+1 =>
    if size = 0 then (fs, bytes_written)
    else
      let sector_idx := byte_to_sector fs d offset
      let sector_ofs := offset % DISK_SECTOR_SIZE
      let inode_left := d.length - offset
      let sector_left := DISK_SECTOR_SIZE - sector_ofs
      let min_left := size_min inode_left sector_left
      let chunk := size_min size min_left
      if chunk = 0 then (fs, bytes_written)
      else
        let sec := sector_idx.getD 0
        let fs1 :=
          if sector_ofs = 0 ∧ chunk = DISK_SECTOR_SIZE then
            cache_write fs sec (Block.bytes
              ((buffer.drop bytes_written).take DISK_SECTOR_SIZE))
          else if sector_ofs > 0 ∨ chunk < sector_left then
            cache_write_at fs sec sector_ofs
              ((buffer.drop bytes_written).take chunk)
          else
            cache_write fs sec (Block.bytes
              ((buffer.drop bytes_written).take DISK_SECTOR_SIZE))
        inode_write_loop d buffer fs1 (size - chunk) (offset + chunk)
          (bytes_written + chunk) f

/-- `inode_write_at` (inode.c:265-313): refuse when
`deny_write_cnt > 0`; attempt the extend (which mutates `inode->data`
in place, also on failure); on success run the chunked write loop. -/
def inode_write_at (fs : FS) (ino : Inode) (buffer : List Nat)
    (size offset : Nat) : Nat × Inode × FS :=
  if ino.deny_write_cnt ≠ 0 then (0, ino, fs)
  else
    let r := inode_extend fs ino.data ino.sector (offset + size)
    let ino1 := { ino with data := r.2.1 }
    if !r.1 then (0, ino1, r.2.2)
    else
      let w := inode_write_loop r.2.1 buffer r.2.2 size offset 0 (size + 1)
      (w.2, ino1, w.1)

/-- C8: for every inode with `deny_write_cnt > 0`, a write of any size at
any offset returns 0 and leaves the in-memory inode and the file-system
state (free map and sector store, hence length, allocated sectors and
data) completely unchanged: the deny check is made before any extension
or data transfer is attempted. -/
theorem inode_write_at_deny (fs : FS) (ino : Inode) (buffer : List Nat)
    (size offset : Nat) (h : ino.deny_write_cnt ≠ 0) :
    inode_write_at fs ino buffer size offset = (0, ino, fs) := by
  simp [inode_write_at, h]

/-- Witness for C8: a denied write of 2 bytes at offset 7 on a 1-byte file
returns 0 and changes nothing. -/
theorem inode_write_at_deny_witness :
    inode_write_at ⟨[true, true, true], true, true, []⟩
        ⟨2, 1, false, 1, ⟨List.replicate 15 0, 1, INODE_MAGIC⟩⟩
        [9, 9] 2 7 =
      (0, ⟨2, 1, false, 1, ⟨List.replicate 15 0, 1, INODE_MAGIC⟩⟩,
        ⟨[true, true, true], true, true, []⟩) :=
  inode_write_at_deny ⟨[true, true, true], true, true, []⟩
    ⟨2, 1, false, 1, ⟨List.replicate 15 0, 1, INODE_MAGIC⟩⟩
    [9, 9] 2 7 (by decide)

/-- A freshly formatted 15-sector volume: sectors 0 and 1 reserved, the
test file's inode at sector 2, twelve free sectors. -/
def fm0C1 : List Bool := [true, true, true] ++ List.replicate 12 false

/-- The file-system state for the rollback scenario. -/
def fs0C1 : FS := ⟨fm0C1, true, true, []⟩

/-- An empty file (length 0) at sector 2. -/
def ino0C1 : Inode := ⟨2, 1, false, 0, ⟨List.replicate 15 0, 0, INODE_MAGIC⟩⟩

/-- C1 (code bug): a write of 6145 bytes (13 sectors) at offset 0 into an
empty file on a volume with only 12 free sectors fails while extending —
the 12 direct data sectors are allocated, then the first indirect block
allocation finds no free sector, and the `fail:` path of
`inode_allocate_interval` releases everything, restoring the free map
(used count 3, as before) — and the write returns 0; but the inode's
in-memory length is left at `alloc_sectors * DISK_SECTOR_SIZE = 6144`
instead of being restored to its pre-call value 0: the rollback sets
`disk_inode->length` for its own release walk (inode.c:490) and never
restores it. -/
theorem inode_write_extend_fail_corrupts_length :
    (inode_write_at fs0C1 ino0C1 [] 6145 0).1 = 0 ∧
    fm_used_count (inode_write_at fs0C1 ino0C1 [] 6145 0).2.2.fm =
      fm_used_count fs0C1.fm ∧
    (inode_write_at fs0C1 ino0C1 [] 6145 0).2.1.data.length = 6144 ∧
    ino0C1.data.length = 0 := by
  refine ⟨?_, ?_, ?_, ?_⟩ <;> decide

end PintosFS

